import Mathlib

/-!
Verification of the scheduling engine of `Sheduling_Agent.py`.

Instants are naturals counting microseconds since an arbitrary epoch,
matching Python `datetime` precision (microseconds); a `timedelta` of
`m` minutes is `m * 60000000` microseconds.  Database access is made
explicit: functions that read the event table in the source take the
snapshot (a list of events) as an argument, and the single writer
returns the updated table.
-/

namespace Sched

/-- Microseconds in one minute. -/
def usPerMin : Nat := 60000000

/-- Microseconds in one hour. -/
def usPerHour : Nat := 3600000000

/-- Microseconds in one day. -/
def usPerDay : Nat := 86400000000

/-- An event row (`id, title, start_iso, end_iso, place`) with the two
timestamps decoded to instants.  The field `stop` embeds the Python
field `end`, which is a reserved word in Lean. -/
structure Event where
  id : Nat
  title : String
  start : Nat
  stop : Nat
  place : String
  deriving DecidableEq

/-- Embedding of `check_conflicts` (Sheduling_Agent.py, lines 118-136):
an exhaustive pairwise scan in `(i, j)` index order with `i < j`, keeping
the pairs whose windows satisfy the source condition
`a["start"] < b["end"] and b["start"] < a["end"]`.  The snapshot that the
source reads from the database is taken as the argument. -/
def check_conflicts : List Event → List (Event × Event)
  | [] => []
  | a :: rest =>
      rest.filterMap (fun b =>
        if a.start < b.stop ∧ b.start < a.stop then some (a, b) else none)
        ++ check_conflicts rest

/-- The full enumeration of the pairs at index positions `(i, j)` with
`i < j`, in the order the source's nested loops visit them; used to state
what `check_conflicts` returns on mutually overlapping inputs. -/
def allPairs : List Event → List (Event × Event)
  | [] => []
  | a :: rest => rest.map (fun b => (a, b)) ++ allPairs rest

/-- Embedding of `round_up_to_5min` (lines 138-140): the minute field is
rounded up with `(dt.minute + 4) // 5 * 5`, then re-added to the instant
truncated to the hour (`dt.replace(minute=0, second=0, microsecond=0)`). -/
def round_up_to_5min (dt : Nat) : Nat :=
  dt / usPerHour * usPerHour + ((dt / usPerMin) % 60 + 4) / 5 * 5 * usPerMin

/-- Insert a `(start, end)` pair into a list sorted by the lexicographic
tuple order that Python's `list.sort()` uses on 2-tuples. -/
def insertBusy (p : Nat × Nat) : List (Nat × Nat) → List (Nat × Nat)
  | [] => [p]
  | q :: rest =>
      if q.1 < p.1 ∨ (q.1 = p.1 ∧ q.2 ≤ p.2) then q :: insertBusy p rest
      else p :: q :: rest

/-- Sorting of the busy list, embedding `busy.sort()` (line 153): sorts
the `(start, end)` pairs in the lexicographic tuple order.  Insertion
sort returns the same list as Python's sort because that order is total
and antisymmetric on pairs. -/
def sortBusy : List (Nat × Nat) → List (Nat × Nat)
  | [] => []
  | p :: rest => insertBusy p (sortBusy rest)

/-- The per-day cursor walk of `find_free_slot` (lines 157-166): with no
busy window left, return the cursor if the slot fits before the end of
the working day; before a busy window, return the cursor if the slot
fits before its start, otherwise advance the cursor to
`max(cursor, b_end)`. -/
def scanBusy (duration dayEnd : Nat) : Nat → List (Nat × Nat) → Option Nat
  | cursor, [] => if cursor + duration ≤ dayEnd then some cursor else none
  | cursor, b :: rest =>
      if cursor + duration ≤ b.1 then some cursor
      else scanBusy duration dayEnd (max cursor b.2) rest

/-- The calendar day scanned at a given offset:
`(probe + timedelta(days=day_offset)).date()` (line 148). -/
def dayOf (probe day_offset : Nat) : Nat :=
  (probe + day_offset * usPerDay) / usPerDay

/-- The busy windows of a day: events whose start date equals the day
(line 151), as `(start, end)` pairs, sorted (lines 149-153). -/
def busyOn (all_events : List Event) (day : Nat) : List (Nat × Nat) :=
  sortBusy ((all_events.filter (fun ev => ev.start / usPerDay == day)).map
    (fun ev => (ev.start, ev.stop)))

/-- One iteration of the day loop of `find_free_slot` (lines 147-166):
working hours are `[day 08:00, day 21:00)`; on the first day the cursor
starts at `max(probe, day_start)`, on later days at `day_start`. -/
def findSlotDay (all_events : List Event) (duration probe day_offset : Nat) :
    Option Nat :=
  scanBusy duration (dayOf probe day_offset * usPerDay + 21 * usPerHour)
    (if day_offset = 0 then
      max probe (dayOf probe day_offset * usPerDay + 8 * usPerHour)
     else dayOf probe day_offset * usPerDay + 8 * usPerHour)
    (busyOn all_events (dayOf probe day_offset))

/-- The day loop of `find_free_slot`: try each day offset in turn until
one yields a slot or the lookahead is exhausted. -/
def findFreeSlotAux (all_events : List Event) (duration probe : Nat) :
    Nat → Nat → Option Nat
  | _, 0 => none
  | day_offset, remaining + 1 =>
      match findSlotDay all_events duration probe day_offset with
      | some slot => some slot
      | none => findFreeSlotAux all_events duration probe (day_offset + 1) remaining

/-- Embedding of `find_free_slot` (lines 142-167).  The `after_time`
lower bound is taken as a required argument (the source defaults it to
the wall clock, and every caller in the engine supplies it); it is
rounded with `round_up_to_5min`, and the slot duration is
`duration_minutes` minutes. -/
def find_free_slot (all_events : List Event) (duration_minutes after_time : Nat)
    (search_days : Nat := 7) : Option Nat :=
  findFreeSlotAux all_events (duration_minutes * usPerMin)
    (round_up_to_5min after_time) 0 search_days

/-- The machine-readable cause attached to a suggestion; the source
stores it as one of two fixed message strings (lines 190 and 194),
embedded here as an inductive tag carrying the anchor title in the first
case. -/
inductive Reason where
  | resolveOverlap (anchorTitle : String)
  | noFreeSlot
  deriving DecidableEq

/-- A suggestion as built by `rule_based_suggestions` (lines 195-206):
the moved event with its original window, the proposed new window, and
the reason.  The source serializes the instants with
`isoformat(timespec="minutes")`; the instants themselves are kept here. -/
structure Suggestion where
  move_event : Event
  new_start : Nat
  new_end : Nat
  reason : Reason
  deriving DecidableEq

/-- The event of a conflict pair that is chosen to move (line 183):
`to_move = b if b["start"] >= a["start"] else a`. -/
def moverOf (c : Event × Event) : Event :=
  if c.1.start ≤ c.2.start then c.2 else c.1

/-- The event of a conflict pair that stays fixed (line 184):
`keep = a if to_move is b else b`. -/
def keeperOf (c : Event × Event) : Event :=
  if c.1.start ≤ c.2.start then c.1 else c.2

/-- The per-conflict body of the loop in `rule_based_suggestions`
(lines 182-207): the duration is truncated to whole minutes
(`int((end - start).total_seconds() // 60)`); a found slot gives
`(slot, slot + duration_minutes)`, otherwise the fallback places the
mover immediately after the kept event using the untruncated duration. -/
def suggest_for (all_events : List Event) (c : Event × Event) : Suggestion :=
  match find_free_slot all_events
      (((moverOf c).stop - (moverOf c).start) / usPerMin) (keeperOf c).stop 7 with
  | some slot =>
      ⟨moverOf c, slot,
        slot + ((moverOf c).stop - (moverOf c).start) / usPerMin * usPerMin,
        Reason.resolveOverlap (keeperOf c).title⟩
  | none =>
      ⟨moverOf c, (keeperOf c).stop,
        (keeperOf c).stop + ((moverOf c).stop - (moverOf c).start),
        Reason.noFreeSlot⟩

/-- Embedding of `rule_based_suggestions` (lines 169-208): one
suggestion per conflict pair, in conflict order, each computed against
the full snapshot. -/
def rule_based_suggestions (evs : List Event) : List Suggestion :=
  (check_conflicts evs).map (suggest_for evs)

/-- Outcome of the external LLM call in `llm_explain_suggestion`
(lines 211-233), abstracted as an oracle value: `unavailable` models
`USE_LLM` being false, `ok text` a successful `llm.invoke` whose content
is `text`, and `failed e` an exception rendered as the string `e`. -/
inductive NarratorOutcome where
  | unavailable
  | ok (text : String)
  | failed (err : String)
  deriving DecidableEq

/-- Embedding of `llm_explain_suggestion` (lines 211-233): `None` when
the LLM is unavailable, the response text on success, and the literal
fallback string built in the `except` branch on failure.  The suggestion
argument only feeds the prompt and does not affect which branch runs. -/
def llm_explain_suggestion (outcome : NarratorOutcome) (_sugg : Suggestion) :
    Option String :=
  match outcome with
  | NarratorOutcome.unavailable => none
  | NarratorOutcome.ok text => some text
  | NarratorOutcome.failed e => some ("(LLM failed: " ++ e ++ ")")

/-- A suggestion as returned by the `/suggestions` endpoint
(lines 267-286), with the optional `llm_explanation` field filled in. -/
structure SuggestionOut where
  move_event : Event
  new_start : Nat
  new_end : Nat
  reason : Reason
  llm_explanation : Option String
  deriving DecidableEq

/-- Embedding of `api_suggestions` (lines 267-286): build the rule-based
suggestions and decorate each with `llm_explain_suggestion`, the
external call being abstracted by the `oracle` argument. -/
def api_suggestions (oracle : Suggestion → NarratorOutcome) (evs : List Event) :
    List SuggestionOut :=
  (rule_based_suggestions evs).map (fun s =>
    { move_event := s.move_event, new_start := s.new_start,
      new_end := s.new_end, reason := s.reason,
      llm_explanation := llm_explain_suggestion (oracle s) s })

/-- Embedding of `update_event_time_db` (lines 80-85): the SQL
`UPDATE events SET start_iso = ?, end_iso = ? WHERE id = ?` rewrites the
window of every row whose id matches and leaves all other rows as they
are; a missing id simply matches no row and raises nothing. -/
def update_event_time_db (db : List Event) (event_id new_start new_stop : Nat) :
    List Event :=
  db.map (fun ev =>
    if ev.id = event_id then { ev with start := new_start, stop := new_stop }
    else ev)

/-- The JSON body returned by `/apply_suggestion` (line 292). -/
structure ApplyResponse where
  status : String
  applied_event_id : Nat
  deriving DecidableEq

/-- Embedding of `api_apply_suggestion` (lines 288-292): update the
stored window of the moved event and unconditionally answer
`{"status": "ok", "applied_event_id": id}`. -/
def api_apply_suggestion (db : List Event) (s : Suggestion) :
    List Event × ApplyResponse :=
  (update_event_time_db db s.move_event.id s.new_start s.new_end,
    { status := "ok", applied_event_id := s.move_event.id })

/-! Helper lemmas. -/

lemma check_conflicts_mem {evs : List Event} {p : Event × Event}
    (h : p ∈ check_conflicts evs) : p.1 ∈ evs ∧ p.2 ∈ evs := by
  induction evs with
  | nil => simp [check_conflicts] at h
  | cons a rest ih =>
      simp only [check_conflicts, List.mem_append, List.mem_filterMap] at h
      rcases h with ⟨b, hb, hsome⟩ | h
      · split at hsome
        · cases hsome
          exact ⟨List.mem_cons_self a rest, List.mem_cons_of_mem _ hb⟩
        · cases hsome
      · rcases ih h with ⟨h1, h2⟩
        exact ⟨List.mem_cons_of_mem _ h1, List.mem_cons_of_mem _ h2⟩

lemma filterMap_overlap_all (a : Event) (l : List Event)
    (h : ∀ b ∈ l, a.start < b.stop ∧ b.start < a.stop) :
    (l.filterMap (fun b =>
        if a.start < b.stop ∧ b.start < a.stop then some (a, b) else none))
      = l.map (fun b => (a, b)) := by
  induction l with
  | nil => rfl
  | cons b rest ih =>
      have hb := h b (List.mem_cons_self b rest)
      have hrest : ∀ x ∈ rest, a.start < x.stop ∧ x.start < a.stop :=
        fun x hx => h x (List.mem_cons_of_mem _ hx)
      simp [List.filterMap_cons, hb.1, hb.2, ih hrest]

lemma filterMap_overlap_none (a : Event) (l : List Event)
    (h : ∀ b ∈ l, ¬(a.start < b.stop ∧ b.start < a.stop)) :
    (l.filterMap (fun b =>
        if a.start < b.stop ∧ b.start < a.stop then some (a, b) else none))
      = [] := by
  induction l with
  | nil => rfl
  | cons b rest ih =>
      have hb := h b (List.mem_cons_self b rest)
      have hrest : ∀ x ∈ rest, ¬(a.start < x.stop ∧ x.start < a.stop) :=
        fun x hx => h x (List.mem_cons_of_mem _ hx)
      simp [List.filterMap_cons, hb, ih hrest]

lemma check_conflicts_disjoint (evs : List Event)
    (hp : List.Pairwise (fun a b => ¬(a.start < b.stop ∧ b.start < a.stop)) evs) :
    check_conflicts evs = [] := by
  induction hp with
  | nil => rfl
  | cons hhead _ ih =>
      simp [check_conflicts, filterMap_overlap_none _ _ hhead, ih]

lemma check_conflicts_overlap (evs : List Event)
    (hp : List.Pairwise (fun a b => a.start < b.stop ∧ b.start < a.stop) evs) :
    check_conflicts evs = allPairs evs := by
  induction hp with
  | nil => rfl
  | cons hhead _ ih =>
      simp [check_conflicts, allPairs, filterMap_overlap_all _ _ hhead, ih]

lemma allPairs_length_two (l : List Event) :
    2 * (allPairs l).length = l.length * (l.length - 1) := by
  induction l with
  | nil => rfl
  | cons a rest ih =>
      simp only [allPairs, List.length_append, List.length_map, List.length_cons]
      cases hn : rest.length with
      | zero =>
          rw [hn] at ih
          simp at ih
          simp [ih]
      | succ m =>
          rw [hn] at ih
          have ih2 : 2 * (allPairs rest).length = (m + 1) * m := by
            simpa using ih
          have h1 : 2 * (m + 1 + (allPairs rest).length)
              = 2 * (m + 1) + 2 * (allPairs rest).length := by ring
          rw [h1, ih2]
          simp only [Nat.add_sub_cancel]
          ring

lemma allPairs_length (l : List Event) :
    (allPairs l).length = l.length * (l.length - 1) / 2 := by
  have h := allPairs_length_two l
  rw [← h]
  omega

lemma insertBusy_mem (p x : Nat × Nat) (l : List (Nat × Nat)) :
    x ∈ insertBusy p l ↔ x = p ∨ x ∈ l := by
  induction l with
  | nil => simp [insertBusy]
  | cons q rest ih =>
      by_cases hq : q.1 < p.1 ∨ (q.1 = p.1 ∧ q.2 ≤ p.2)
      · simp only [insertBusy, if_pos hq, List.mem_cons, ih]
        tauto
      · simp only [insertBusy, if_neg hq, List.mem_cons]
        try tauto

lemma insertBusy_pairwise (p : Nat × Nat) (l : List (Nat × Nat))
    (hl : List.Pairwise (fun a b => a.1 ≤ b.1) l) :
    List.Pairwise (fun a b => a.1 ≤ b.1) (insertBusy p l) := by
  induction l with
  | nil => simp [insertBusy]
  | cons q rest ih =>
      rcases List.pairwise_cons.mp hl with ⟨hq, hrest⟩
      by_cases hcase : q.1 < p.1 ∨ (q.1 = p.1 ∧ q.2 ≤ p.2)
      · have hq1 : q.1 ≤ p.1 := by rcases hcase with h | ⟨h, _⟩ <;> omega
        simp only [insertBusy, if_pos hcase]
        refine List.pairwise_cons.mpr ⟨?_, ih hrest⟩
        intro x hx
        rcases (insertBusy_mem p x rest).mp hx with rfl | hx2
        · exact hq1
        · exact hq x hx2
      · have hnlt : ¬(q.1 < p.1) := fun h => hcase (Or.inl h)
        have hp1 : p.1 ≤ q.1 := by omega
        simp only [insertBusy, if_neg hcase]
        refine List.pairwise_cons.mpr ⟨?_, hl⟩
        intro x hx
        rcases List.mem_cons.mp hx with rfl | hx2
        · exact hp1
        · exact le_trans hp1 (hq x hx2)

lemma sortBusy_mem (x : Nat × Nat) (l : List (Nat × Nat)) :
    x ∈ sortBusy l ↔ x ∈ l := by
  induction l with
  | nil => simp [sortBusy]
  | cons p rest ih => simp [sortBusy, insertBusy_mem, ih]

lemma sortBusy_pairwise (l : List (Nat × Nat)) :
    List.Pairwise (fun a b => a.1 ≤ b.1) (sortBusy l) := by
  induction l with
  | nil => simp [sortBusy]
  | cons p rest ih => exact insertBusy_pairwise p _ ih

lemma scanBusy_some (duration dayEnd : Nat) :
    ∀ (busy : List (Nat × Nat)) (cursor slot : Nat),
      scanBusy duration dayEnd cursor busy = some slot →
      cursor ≤ slot ∧
      (slot + duration ≤ dayEnd ∨ ∃ p ∈ busy, slot + duration ≤ p.1) ∧
      (List.Pairwise (fun a b => a.1 ≤ b.1) busy →
        ∀ p ∈ busy, slot + duration ≤ p.1 ∨ p.2 ≤ slot) := by
  intro busy
  induction busy with
  | nil =>
      intro cursor slot h
      simp only [scanBusy] at h
      split at h
      case isTrue hcond =>
          cases h
          exact ⟨le_refl _, Or.inl hcond,
            fun _ p hp => absurd hp (List.not_mem_nil p)⟩
      case isFalse => cases h
  | cons b rest ih =>
      intro cursor slot h
      simp only [scanBusy] at h
      split at h
      case isTrue hcond =>
          cases h
          refine ⟨le_refl _, Or.inr ⟨b, List.mem_cons_self b rest, hcond⟩, ?_⟩
          intro hpw p hp
          rcases List.mem_cons.mp hp with rfl | hp2
          · exact Or.inl hcond
          · have hb1 : b.1 ≤ p.1 := (List.pairwise_cons.mp hpw).1 p hp2
            exact Or.inl (le_trans hcond hb1)
      case isFalse hcond =>
          rcases ih (max cursor b.2) slot h with ⟨h1, h2, h3⟩
          refine ⟨le_trans (le_max_left _ _) h1, ?_, ?_⟩
          · rcases h2 with h2 | ⟨p, hp, hle⟩
            · exact Or.inl h2
            · exact Or.inr ⟨p, List.mem_cons_of_mem _ hp, hle⟩
          · intro hpw p hp
            rcases List.mem_cons.mp hp with rfl | hp2
            · exact Or.inr (le_trans (le_max_right _ _) h1)
            · exact h3 (List.pairwise_cons.mp hpw).2 p hp2

lemma busyOn_mem {evs : List Event} {day : Nat} {ev : Event}
    (hev : ev ∈ evs) (hday : ev.start / usPerDay = day) :
    (ev.start, ev.stop) ∈ busyOn evs day := by
  unfold busyOn
  rw [sortBusy_mem]
  exact List.mem_map.mpr ⟨ev, List.mem_filter.mpr ⟨hev, by simp [hday]⟩, rfl⟩

lemma busyOn_start {evs : List Event} {day : Nat} {p : Nat × Nat}
    (hp : p ∈ busyOn evs day) : p.1 / usPerDay = day := by
  unfold busyOn at hp
  rw [sortBusy_mem] at hp
  rcases List.mem_map.mp hp with ⟨ev, hev, rfl⟩
  have h2 := (List.mem_filter.mp hev).2
  simpa using h2

lemma busyOn_pairwise (evs : List Event) (day : Nat) :
    List.Pairwise (fun a b => a.1 ≤ b.1) (busyOn evs day) :=
  sortBusy_pairwise _

lemma findSlotDay_some {evs : List Event} {duration probe off slot : Nat}
    (h : findSlotDay evs duration probe off = some slot) :
    probe ≤ slot ∧ 8 * usPerHour ≤ slot % usPerDay ∧
    ∀ ev ∈ evs, ev.start / usPerDay = slot / usPerDay →
      slot + duration ≤ ev.start ∨ ev.stop ≤ slot := by
  unfold findSlotDay at h
  rcases scanBusy_some _ _ _ _ _ h with ⟨h1, h2, h3⟩
  set d := dayOf probe off with hd
  have hcur : d * usPerDay + 8 * usPerHour ≤ slot ∧ probe ≤ slot := by
    by_cases hoff : off = 0
    · rw [if_pos hoff] at h1
      exact ⟨le_trans (le_max_right _ _) h1, le_trans (le_max_left _ _) h1⟩
    · rw [if_neg hoff] at h1
      have hoff1 : 1 ≤ off := Nat.one_le_iff_ne_zero.mpr hoff
      have hdq : d = (probe + off * usPerDay) / usPerDay := rfl
      have hple : probe ≤ d * usPerDay := by
        simp only [usPerDay] at hdq ⊢
        omega
      exact ⟨h1, le_trans hple (le_trans (Nat.le_add_right _ _) h1)⟩
  have hslotlt : slot < (d + 1) * usPerDay := by
    rcases h2 with h2 | ⟨p, hp, hle⟩
    · simp only [usPerHour, usPerDay] at h2 ⊢
      omega
    · have hpd : p.1 / usPerDay = d := busyOn_start hp
      simp only [usPerDay] at hpd ⊢
      omega
  have hmod : 8 * usPerHour ≤ slot % usPerDay ∧ slot / usPerDay = d := by
    have hc1 := hcur.1
    simp only [usPerHour, usPerDay] at hc1 hslotlt ⊢
    omega
  refine ⟨hcur.2, hmod.1, ?_⟩
  intro ev hev hd2
  have hmemb : (ev.start, ev.stop) ∈ busyOn evs d :=
    busyOn_mem hev (by rw [hd2, hmod.2])
  exact h3 (busyOn_pairwise evs d) _ hmemb

lemma findFreeSlotAux_some (evs : List Event) (duration probe : Nat) :
    ∀ (remaining day_offset slot : Nat),
      findFreeSlotAux evs duration probe day_offset remaining = some slot →
      ∃ off, findSlotDay evs duration probe off = some slot := by
  intro remaining
  induction remaining with
  | zero =>
      intro day_offset slot h
      simp [findFreeSlotAux] at h
  | succ n ih =>
      intro day_offset slot h
      cases hd : findSlotDay evs duration probe day_offset with
      | some s =>
          simp only [findFreeSlotAux, hd] at h
          exact ⟨day_offset, by rw [hd, h]⟩
      | none =>
          simp only [findFreeSlotAux, hd] at h
          exact ih (day_offset + 1) slot h

/-! Claim theorems. -/

/-- Claim C6: the conflict scan reports a pair exactly when
`s1 < e2` and `s2 < e1` (half-open semantics), and two windows that
merely touch (`e1 = s2`) are never reported. -/
theorem c6_thm (a b : Event) :
    ((a, b) ∈ check_conflicts [a, b] ↔ (a.start < b.stop ∧ b.start < a.stop)) ∧
    (a.stop = b.start → (a, b) ∉ check_conflicts [a, b]) := by
  have hrepr : check_conflicts [a, b]
      = if a.start < b.stop ∧ b.start < a.stop then [(a, b)] else [] := by
    by_cases hab : a.start < b.stop ∧ b.start < a.stop <;>
      simp [check_conflicts, hab]
  rw [hrepr]
  constructor
  · by_cases hab : a.start < b.stop ∧ b.start < a.stop <;> simp [hab]
  · intro he hmem
    by_cases hab : a.start < b.stop ∧ b.start < a.stop
    · omega
    · simp [hab] at hmem

/-- Concrete instantiation of `c6_thm` at a pair of overlapping events. -/
theorem c6_witness :
    (((⟨1, "A", 0, 100, ""⟩ : Event), (⟨2, "B", 50, 150, ""⟩ : Event)) ∈
        check_conflicts [⟨1, "A", 0, 100, ""⟩, ⟨2, "B", 50, 150, ""⟩] ↔
      ((⟨1, "A", 0, 100, ""⟩ : Event).start < (⟨2, "B", 50, 150, ""⟩ : Event).stop ∧
        (⟨2, "B", 50, 150, ""⟩ : Event).start < (⟨1, "A", 0, 100, ""⟩ : Event).stop)) ∧
    ((⟨1, "A", 0, 100, ""⟩ : Event).stop = (⟨2, "B", 50, 150, ""⟩ : Event).start →
      ((⟨1, "A", 0, 100, ""⟩ : Event), (⟨2, "B", 50, 150, ""⟩ : Event)) ∉
        check_conflicts [⟨1, "A", 0, 100, ""⟩, ⟨2, "B", 50, 150, ""⟩]) :=
  c6_thm ⟨1, "A", 0, 100, ""⟩ ⟨2, "B", 50, 150, ""⟩

/-- Claim C7: pairwise-disjoint snapshots yield no conflicts; mutually
overlapping snapshots yield exactly the `(i, j)` (`i < j`) index-order
enumeration of pairs, hence `n * (n - 1) / 2` of them; snapshots of at
most one event yield nothing. -/
theorem c7_thm (evs : List Event) :
    (List.Pairwise (fun a b => ¬(a.start < b.stop ∧ b.start < a.stop)) evs →
      check_conflicts evs = []) ∧
    (List.Pairwise (fun a b => a.start < b.stop ∧ b.start < a.stop) evs →
      check_conflicts evs = allPairs evs ∧
      (check_conflicts evs).length = evs.length * (evs.length - 1) / 2) ∧
    (evs.length ≤ 1 → check_conflicts evs = []) := by
  refine ⟨fun hp => check_conflicts_disjoint evs hp,
    fun hp => ⟨check_conflicts_overlap evs hp, ?_⟩, ?_⟩
  · rw [check_conflicts_overlap evs hp, allPairs_length]
  · intro hlen
    cases evs with
    | nil => rfl
    | cons a rest =>
        cases rest with
        | nil => rfl
        | cons b r2 => simp at hlen

/-- Concrete instantiation of `c7_thm`: a disjoint pair gives no
conflict, a mutually overlapping triple gives the full index-order
enumeration. -/
theorem c7_witness :
    check_conflicts [⟨1, "A", 0, 10, ""⟩, ⟨2, "B", 20, 30, ""⟩] = [] ∧
    check_conflicts [⟨1, "A", 0, 100, ""⟩, ⟨2, "B", 10, 90, ""⟩, ⟨3, "C", 20, 80, ""⟩]
      = allPairs [⟨1, "A", 0, 100, ""⟩, ⟨2, "B", 10, 90, ""⟩, ⟨3, "C", 20, 80, ""⟩] :=
  ⟨(c7_thm _).1 (by decide), ((c7_thm _).2.1 (by decide)).1⟩

/-- Counterexample to claim C1 as stated: for `X = [09:00, 10:00)` and
`Y = [09:30, 10:30)` on day 0 (instants in microseconds), the produced
suggestion does not have `newStart = 10:00` (`36000000000`); the mover's
own original window is part of the busy list and pushes the slot to
10:30. -/
theorem c1_cex :
    (rule_based_suggestions [⟨1, "X", 32400000000, 36000000000, ""⟩,
        ⟨2, "Y", 34200000000, 37800000000, ""⟩]).map Suggestion.new_start
      ≠ [36000000000] := by decide

/-- Claim C1 (amended): for the Scenario A snapshot
`X = [09:00, 10:00)`, `Y = [09:30, 10:30)` on the same day, exactly one
suggestion is produced; its mover is `Y` (the later start), and because
the free-slot search counts `Y`'s own original window as busy, the
proposed window is `newStart = 10:30`, `newEnd = 11:30` on that day
(not `10:00`/`11:00` as the spec's scenario states). -/
theorem c1_thm :
    rule_based_suggestions [⟨1, "X", 32400000000, 36000000000, ""⟩,
        ⟨2, "Y", 34200000000, 37800000000, ""⟩]
      = [⟨⟨2, "Y", 34200000000, 37800000000, ""⟩, 37800000000, 41400000000,
          Reason.resolveOverlap ("X")⟩] := by
  rfl

/-- Counterexample to claim C2 as stated: two well-formed events where
the mover's duration is 30.5 minutes (`Y = [09:30:00, 10:00:30)`); the
slot branch truncates the duration to 30 whole minutes, so the proposed
window's length (1800000000 microseconds) differs from the original
duration (1830000000 microseconds). -/
theorem c2_cex :
    (rule_based_suggestions [⟨1, "X", 32400000000, 36000000000, ""⟩,
        ⟨2, "Y", 34200000000, 36030000000, ""⟩]).map
      (fun s => (s.new_end - s.new_start, s.move_event.stop - s.move_event.start))
      = [(1800000000, 1830000000)] ∧ (1800000000 : Nat) ≠ 1830000000 := by
  exact ⟨by rfl, by decide⟩

/-- Claim C2 (amended): for snapshots of well-formed events whose
timestamps all lie on whole minutes, every suggestion preserves the
mover's original duration exactly, on both the slot-found branch and the
no-slot fallback branch.  (For sub-minute timestamps the slot branch
truncates the duration to whole minutes, see `c2_cex`.) -/
theorem c2_thm (evs : List Event)
    (hwf : ∀ ev ∈ evs, ev.start < ev.stop ∧ ev.start % usPerMin = 0 ∧
      ev.stop % usPerMin = 0)
    (s : Suggestion) (hs : s ∈ rule_based_suggestions evs) :
    s.new_end - s.new_start = s.move_event.stop - s.move_event.start := by
  unfold rule_based_suggestions at hs
  rcases List.mem_map.mp hs with ⟨c, hc, rfl⟩
  rcases check_conflicts_mem hc with ⟨h1, h2⟩
  have hmem : moverOf c ∈ evs := by
    unfold moverOf
    split
    · exact h2
    · exact h1
  rcases hwf (moverOf c) hmem with ⟨hlt, hs1, hs2⟩
  unfold suggest_for
  cases hslot : find_free_slot evs
      (((moverOf c).stop - (moverOf c).start) / usPerMin) (keeperOf c).stop 7 with
  | some slot =>
      simp only [hslot]
      simp only [usPerMin] at hs1 hs2 ⊢
      omega
  | none =>
      simp only [hslot]
      omega

/-- Concrete instantiation of `c2_thm` on the Scenario A snapshot. -/
theorem c2_witness : (41400000000 : Nat) - 37800000000 = 37800000000 - 34200000000 :=
  c2_thm [⟨1, "X", 32400000000, 36000000000, ""⟩,
      ⟨2, "Y", 34200000000, 37800000000, ""⟩]
    (by decide)
    ⟨⟨2, "Y", 34200000000, 37800000000, ""⟩, 37800000000, 41400000000,
      Reason.resolveOverlap ("X")⟩
    (by decide)

/-- Counterexample to claim C3 as stated: with day-0 events
`[08:00, 20:30)` and `[22:00, 23:00)` and a 60-minute request from
08:00, the search returns 20:30 because the slot fits before the busy
window that starts at 22:00, yet `20:30 + 60min = 21:30` lies outside
the `[08:00, 21:00)` working-hours envelope. -/
theorem c3_cex :
    find_free_slot [⟨1, "A", 28800000000, 73800000000, ""⟩,
        ⟨2, "B", 79200000000, 82800000000, ""⟩] 60 28800000000 7
      = some 73800000000 ∧
    ¬(73800000000 % usPerDay + 60 * usPerMin ≤ 21 * usPerHour) := by decide

/-- Claim C3 (amended): whenever `find_free_slot` returns a slot, the
slot starts at or after 08:00 on the slot's day.  The upper working-hour
bound does not hold in general: the early return before a late busy
window can propose a slot whose end exceeds 21:00 (see `c3_cex`). -/
theorem c3_thm (all_events : List Event)
    (duration_minutes after_time search_days slot : Nat)
    (h : find_free_slot all_events duration_minutes after_time search_days
      = some slot) :
    8 * usPerHour ≤ slot % usPerDay := by
  unfold find_free_slot at h
  rcases findFreeSlotAux_some _ _ _ _ _ _ h with ⟨off, hoff⟩
  exact (findSlotDay_some hoff).2.1

/-- Concrete instantiation of `c3_thm`: an empty snapshot from 08:00
yields the 08:00 slot, which lies at the start of working hours. -/
theorem c3_witness : 8 * usPerHour ≤ 28800000000 % usPerDay :=
  c3_thm [] 60 28800000000 7 28800000000 (by decide)

/-- Counterexample to claim C4 as stated: at `t = 10:05:30`
(`36330000000` microseconds into day 0) the rounding helper returns
`10:05:00`, which is earlier than `t`: the minute field is already a
multiple of 5, and the seconds are silently discarded rather than
rounded up. -/
theorem c4_cex : round_up_to_5min 36330000000 < 36330000000 := by decide

/-- Claim C4 (amended): for every instant `t` whose seconds and finer
components are zero (a whole-minute instant), `round_up_to_5min t` is
the smallest instant at or after `t` lying on a 5-minute boundary; in
particular it equals `t` when `t` is already on a boundary.  For
instants with nonzero sub-minute components the result can be earlier
than `t` (see `c4_cex`). -/
theorem c4_thm (t : Nat) (h : t % usPerMin = 0) :
    t ≤ round_up_to_5min t ∧
    round_up_to_5min t % (5 * usPerMin) = 0 ∧
    (t % (5 * usPerMin) = 0 → round_up_to_5min t = t) ∧
    (∀ u, t ≤ u → u % (5 * usPerMin) = 0 → round_up_to_5min t ≤ u) := by
  unfold round_up_to_5min
  simp only [usPerMin, usPerHour] at h ⊢
  refine ⟨by omega, by omega, fun hb => by omega, fun u hu hm => by omega⟩

/-- Concrete instantiation of `c4_thm` at the boundary instant 10:05. -/
theorem c4_witness :
    (36300000000 : Nat) ≤ round_up_to_5min 36300000000 ∧
    round_up_to_5min 36300000000 % (5 * usPerMin) = 0 :=
  ⟨(c4_thm 36300000000 (by decide)).1, (c4_thm 36300000000 (by decide)).2.1⟩

/-- Counterexample to claim C5 as stated: with an empty snapshot and
lower bound `10:05:30` (`36330000000`), the search returns `10:05:00`,
which starts before the given lower bound, because the 5-minute rounding
of the bound moves backwards on sub-minute input. -/
theorem c5_cex :
    find_free_slot [] 60 36330000000 7 = some 36300000000 ∧
    (36300000000 : Nat) < 36330000000 := by decide

/-- Claim C5 (amended): whenever `find_free_slot` returns a slot, the
slot does not start before the 5-minute-rounded lower bound
(`round_up_to_5min after_time`; for the raw lower bound this can fail by
less than a minute, see `c5_cex`), and the proposed window does not
intersect the window of any supplied event whose start date equals the
slot's day. -/
theorem c5_thm (all_events : List Event)
    (duration_minutes after_time search_days slot : Nat)
    (h : find_free_slot all_events duration_minutes after_time search_days
      = some slot) :
    round_up_to_5min after_time ≤ slot ∧
    ∀ ev ∈ all_events, ev.start / usPerDay = slot / usPerDay →
      ¬(slot < ev.stop ∧ ev.start < slot + duration_minutes * usPerMin) := by
  unfold find_free_slot at h
  rcases findFreeSlotAux_some _ _ _ _ _ _ h with ⟨off, hoff⟩
  rcases findSlotDay_some hoff with ⟨h1, _, h4⟩
  refine ⟨h1, ?_⟩
  intro ev hev hd
  rcases h4 ev hev hd with h5 | h5 <;> omega

/-- Concrete instantiation of `c5_thm` on an empty snapshot. -/
theorem c5_witness : round_up_to_5min 28800000000 ≤ 28800000000 :=
  (c5_thm [] 60 28800000000 7 28800000000 (by decide)).1

/-- Counterexample to claim C8 as stated: applying a suggestion whose
mover id (99) is absent from the store changes nothing and still reports
success, rather than surfacing a NotFound error. -/
theorem c8_cex :
    (api_apply_suggestion [⟨1, "X", 32400000000, 36000000000, ""⟩]
        ⟨⟨99, "G", 0, 60000000, ""⟩, 120000000, 180000000, Reason.noFreeSlot⟩).2.status
      = "ok" ∧
    (api_apply_suggestion [⟨1, "X", 32400000000, 36000000000, ""⟩]
        ⟨⟨99, "G", 0, 60000000, ""⟩, 120000000, 180000000, Reason.noFreeSlot⟩).1
      = [⟨1, "X", 32400000000, 36000000000, ""⟩] := by
  exact ⟨rfl, rfl⟩

/-- Claim C8 (amended): when Apply targets an event id that the store
does not contain, the SQL update matches no row: the store is unchanged,
no retry happens, and the operation still reports success (`"ok"`); no
NotFound error is surfaced. -/
theorem c8_thm (db : List Event) (s : Suggestion)
    (h : ∀ ev ∈ db, ev.id ≠ s.move_event.id) :
    api_apply_suggestion db s
      = (db, { status := "ok", applied_event_id := s.move_event.id }) := by
  unfold api_apply_suggestion update_event_time_db
  have hmap : ∀ l : List Event, (∀ ev ∈ l, ev.id ≠ s.move_event.id) →
      l.map (fun ev => if ev.id = s.move_event.id then
        { ev with start := s.new_start, stop := s.new_end } else ev) = l := by
    intro l
    induction l with
    | nil => intro _; rfl
    | cons a rest ih =>
        intro hl
        have ha := hl a (List.mem_cons_self a rest)
        rw [List.map_cons, ih (fun x hx => hl x (List.mem_cons_of_mem _ hx))]
        simp [ha]
  rw [hmap db h]

/-- Concrete instantiation of `c8_thm` at a store without the target. -/
theorem c8_witness :
    api_apply_suggestion [⟨1, "X", 32400000000, 36000000000, ""⟩]
        ⟨⟨99, "G", 0, 60000000, ""⟩, 120000000, 180000000, Reason.noFreeSlot⟩
      = ([⟨1, "X", 32400000000, 36000000000, ""⟩],
          { status := "ok", applied_event_id := 99 }) :=
  c8_thm _ _ (by decide)

/-- Counterexample to claim C9 as stated: when the narrator call fails,
the suggestion is still returned but its explanation field is not
unset — it is set to the literal failure placeholder built in the
`except` branch. -/
theorem c9_cex :
    (api_suggestions (fun _ => NarratorOutcome.failed ("boom"))
        [⟨1, "X", 32400000000, 36000000000, ""⟩,
          ⟨2, "Y", 34200000000, 37800000000, ""⟩]).map SuggestionOut.llm_explanation
      = [some ("(LLM failed: boom)")] ∧
    some ("(LLM failed: boom)") ≠ (none : Option String) := by
  exact ⟨rfl, by simp⟩

/-- Claim C9 (amended): narrator behaviour never blocks or drops
suggestions — the decorated output pairs up one-to-one with the
rule-based suggestions whatever the narrator does; when the narrator is
unavailable the explanation is unset, and when the call fails the
explanation is set to the failure placeholder string rather than left
unset (see `c9_cex`). -/
theorem c9_thm (oracle : Suggestion → NarratorOutcome) (evs : List Event) :
    List.Forall₂ (fun s o =>
      o.move_event = s.move_event ∧ o.new_start = s.new_start ∧
      o.new_end = s.new_end ∧ o.reason = s.reason ∧
      (oracle s = NarratorOutcome.unavailable → o.llm_explanation = none) ∧
      (∀ txt, oracle s = NarratorOutcome.ok txt → o.llm_explanation = some txt) ∧
      (∀ e, oracle s = NarratorOutcome.failed e →
        o.llm_explanation = some ("(LLM failed: " ++ e ++ ")")))
      (rule_based_suggestions evs) (api_suggestions oracle evs) := by
  unfold api_suggestions
  generalize rule_based_suggestions evs = l
  induction l with
  | nil => exact List.Forall₂.nil
  | cons s rest ih =>
      refine List.Forall₂.cons ?_ ih
      refine ⟨rfl, rfl, rfl, rfl, ?_, ?_, ?_⟩
      · intro h
        simp [llm_explain_suggestion, h]
      · intro txt h
        simp [llm_explain_suggestion, h]
      · intro e h
        simp [llm_explain_suggestion, h]

/-- Concrete instantiation of `c9_thm` with an unavailable narrator on
the Scenario A snapshot. -/
theorem c9_witness :
    List.Forall₂ (fun s o =>
      o.move_event = s.move_event ∧ o.new_start = s.new_start ∧
      o.new_end = s.new_end ∧ o.reason = s.reason ∧
      (NarratorOutcome.unavailable = NarratorOutcome.unavailable →
        o.llm_explanation = none) ∧
      (∀ txt, NarratorOutcome.unavailable = NarratorOutcome.ok txt →
        o.llm_explanation = some txt) ∧
      (∀ e, NarratorOutcome.unavailable = NarratorOutcome.failed e →
        o.llm_explanation = some ("(LLM failed: " ++ e ++ ")")))
      (rule_based_suggestions [⟨1, "X", 32400000000, 36000000000, ""⟩,
        ⟨2, "Y", 34200000000, 37800000000, ""⟩])
      (api_suggestions (fun _ => NarratorOutcome.unavailable)
        [⟨1, "X", 32400000000, 36000000000, ""⟩,
          ⟨2, "Y", 34200000000, 37800000000, ""⟩]) :=
  c9_thm (fun _ => NarratorOutcome.unavailable)
    [⟨1, "X", 32400000000, 36000000000, ""⟩,
      ⟨2, "Y", 34200000000, 37800000000, ""⟩]

/-- Claim C10: applying a suggestion whose mover id exists in the store
changes only the start and end of the rows carrying that id; every row
keeps its id, title and place, rows with other ids are untouched, and
the length of the store is unchanged. -/
theorem c10_thm (db : List Event) (s : Suggestion)
    (_hex : ∃ ev ∈ db, ev.id = s.move_event.id) :
    ((api_apply_suggestion db s).1.length = db.length) ∧
    (∀ i : Nat,
      ((api_apply_suggestion db s).1[i]?).map Event.id = (db[i]?).map Event.id ∧
      ((api_apply_suggestion db s).1[i]?).map Event.title
        = (db[i]?).map Event.title ∧
      ((api_apply_suggestion db s).1[i]?).map Event.place
        = (db[i]?).map Event.place ∧
      (∀ ev, db[i]? = some ev → ev.id ≠ s.move_event.id →
        (api_apply_suggestion db s).1[i]? = some ev) ∧
      (∀ ev, db[i]? = some ev → ev.id = s.move_event.id →
        (api_apply_suggestion db s).1[i]?
          = some { ev with start := s.new_start, stop := s.new_end })) := by
  unfold api_apply_suggestion update_event_time_db
  refine ⟨List.length_map _ _, ?_⟩
  intro i
  simp only [List.getElem?_map]
  cases hdb : db[i]? with
  | none => simp
  | some ev =>
      by_cases hid : ev.id = s.move_event.id
      · simp [hid]
      · simp [hid]

/-- Concrete instantiation of `c10_thm` at a one-row store. -/
theorem c10_witness :
    (api_apply_suggestion [⟨1, "X", 32400000000, 36000000000, ""⟩]
        ⟨⟨1, "X", 32400000000, 36000000000, ""⟩, 37800000000, 41400000000,
          Reason.noFreeSlot⟩).1.length
      = [(⟨1, "X", 32400000000, 36000000000, ""⟩ : Event)].length :=
  (c10_thm [⟨1, "X", 32400000000, 36000000000, ""⟩]
    ⟨⟨1, "X", 32400000000, 36000000000, ""⟩, 37800000000, 41400000000,
      Reason.noFreeSlot⟩
    ⟨⟨1, "X", 32400000000, 36000000000, ""⟩, List.mem_singleton_self _, rfl⟩).1

end Sched
